import Mathlib

/-!
Verification of the deployment-planning pipeline of the `composer`
repository (`main.go`).  The Go code is shallowly embedded: Go maps
(`map[string]kv`, `map[string]string`) become association lists keyed on
the map key, Go slices become Lean lists, and the reference semantics of
Go maps (the `envs = map[string]env` table whose values alias underlying
mutable maps) is made explicit with a heap of environments addressed by
natural numbers.  Fallible code returns `Except String`.
-/

set_option autoImplicit false

namespace Composer

/-- Type `kv` from `main.go`: one configuration entry (key and raw value). -/
structure Kv where
  key : String
  value : String
deriving DecidableEq, Repr

/-- Type `env = map[string]kv`: association list from map key to `Kv`.
The Go map key is carried separately from the `Kv.key` field, exactly as
in the source, where the two normally coincide but need not. -/
abbrev Env := List (String × Kv)

/-- Go map read `e[k]`: the stored `kv`, or the zero value `kv{}` when the
key is absent. -/
def Env.lookup : Env → String → Kv
  | [], _ => ⟨"", ""⟩
  | (k', v') :: rest, k => if k' = k then v' else Env.lookup rest k

/-- Go map membership test `_, present := e[k]`. -/
def Env.hasKey : Env → String → Bool
  | [], _ => false
  | (k', _) :: rest, k => k' = k || Env.hasKey rest k

/-- Go map write `e[k] = v`: replace the entry in place when the key is
present, otherwise add a new entry. -/
def Env.insert : Env → String → Kv → Env
  | [], k, v => [(k, v)]
  | (k', v') :: rest, k, v =>
    if k' = k then (k, v) :: rest else (k', v') :: Env.insert rest k v

/-- Type `map[string]string` used as a set (`AvoidNetworks`): association list. -/
abbrev GoMap := List (String × String)

/-- Go map membership test on a `map[string]string`. -/
def GoMap.hasKey : GoMap → String → Bool
  | [], _ => false
  | (k', _) :: rest, k => k' = k || GoMap.hasKey rest k

/-- Go map write `m[k] = v` on a `map[string]string`. -/
def GoMap.insert : GoMap → String → String → GoMap
  | [], k, v => [(k, v)]
  | (k', v') :: rest, k, v =>
    if k' = k then (k, v) :: rest else (k', v') :: GoMap.insert rest k v

/-- Go `strings.Split` with a one-character separator, on the character
list of the string.  Splitting always yields at least one (possibly
empty) group, as in Go. -/
def splitOnChar (sep : Char) : List Char → List (List Char)
  | [] => [[]]
  | c :: cs =>
    let rest := splitOnChar sep cs
    if c = sep then [] :: rest
    else
      match rest with
      | [] => [[c]]
      | g :: gs => (c :: g) :: gs

/-- Go `strings.Split(s, sep)` for a one-character separator `sep`. -/
def goSplit (s : String) (sep : Char) : List String :=
  (splitOnChar sep s.data).map (fun l => String.mk l)

/-- Function `getKeyValue` from `main.go`: split on `=`; a line with no `=` is a
flag (key with empty value); otherwise the first two fragments are the
key and the value (anything after a second `=` is discarded). -/
def getKeyValue (data : String) : String × String :=
  let bits := goSplit data '='
  if bits.length < 2 then (bits.headD "", "")
  else (bits.getD 0 "", bits.getD 1 "")

/-- Numeric value of a decimal digit character, or `none`. -/
def digitVal (c : Char) : Option Nat :=
  if '0' ≤ c ∧ c ≤ '9' then some (c.toNat - '0'.toNat) else none

/-- Accumulate decimal digits; fails on any non-digit. -/
def parseDigitsAux : Nat → List Char → Option Nat
  | acc, [] => some acc
  | acc, c :: cs =>
    match digitVal c with
    | some d => parseDigitsAux (acc * 10 + d) cs
    | none => none

/-- Parse a non-empty all-digit character list as a natural number. -/
def parseDigits (cs : List Char) : Option Nat :=
  match cs with
  | [] => none
  | _ => parseDigitsAux 0 cs

/-- Go `strconv.Atoi`: optional sign, then decimal digits, with the
64-bit signed range check of `ParseInt(s, 10, 0)` on a 64-bit platform.
`none` models a returned error. -/
def goAtoi (s : String) : Option Int :=
  let signed : Bool × List Char :=
    match s.data with
    | '-' :: rest => (true, rest)
    | '+' :: rest => (false, rest)
    | cs => (false, cs)
  match parseDigits signed.2 with
  | none => none
  | some n =>
    let v : Int := if signed.1 then -(n : Int) else (n : Int)
    if -(2 ^ 63) ≤ v ∧ v ≤ 2 ^ 63 - 1 then some v else none

/-- Function `getSubStringsMap` from `main.go`: split by comma and store each
fragment as both key and value of a Go map. -/
def getSubStringsMap (array : String) : GoMap :=
  (goSplit array ',').foldl (fun result v => result.insert v v) []

/-- Type `config` from `main.go`. -/
structure Config where
  AvoidNetworks : GoMap
  AvoidMasters : Int
deriving DecidableEq, Repr

/-- Function `getConfig` from `main.go`: resolve `AVOID_NETWORKS` (default the
singleton `ingress` set) and `AVOID_MASTERS` (default `1`, else
`strconv.Atoi`); an error return models the Go error value. -/
def getConfig (containerEnv : Env) : Except String Config :=
  let avoidStrings := containerEnv.lookup "AVOID_NETWORKS"
  let step1 : Except String GoMap :=
    if avoidStrings.value ≠ "" then
      let nets := getSubStringsMap avoidStrings.value
      if nets.length = 0 then Except.error "invalid value passed for AVOID_NETWORKS"
      else Except.ok nets
    else Except.ok [("ingress", "ingress")]
  match step1 with
  | Except.error e => Except.error e
  | Except.ok nets =>
    let avoidMastersString := containerEnv.lookup "AVOID_MASTERS"
    if avoidMastersString.value ≠ "" then
      match goAtoi avoidMastersString.value with
      | none => Except.error "invalid value passed for AVOID_INGRESS"
      | some s => Except.ok ⟨nets, s⟩
    else Except.ok ⟨nets, 1⟩

/-- One entry of the Docker network list: the fields of
`types.NetworkResource` that `getNetworkList` reads. -/
structure NetworkResource where
  Name : String
  Driver : String
deriving DecidableEq, Repr

/-- Function `getNetworkList` from `main.go`, with the platform-reported list made
an explicit argument: keep, in order, the names of networks whose driver
is `overlay` and whose name is not in the avoid map. -/
def getNetworkList (avoidNetworks : GoMap) (list : List NetworkResource) : List String :=
  list.foldl
    (fun networks network =>
      if network.Driver = "overlay" then
        if avoidNetworks.hasKey network.Name then networks
        else networks ++ [network.Name]
      else networks)
    []

/-- The pure per-environment body of `setAndGetContainerEnv` from
`main.go` (lines 168-178): read `STACK_NAME` and `SERVICE_NAME`, derive
the network-scoped stack name and service-spec name, overwrite
`STACK_NAME` and add `SERVICE_SPEC_NAME`. -/
def transformEnv (e : Env) (network : String) : Env :=
  let stackValue := (e.lookup "STACK_NAME").value
  let serviceValue := (e.lookup "SERVICE_NAME").value
  let stackKey := (e.lookup "STACK_NAME").key
  let newStackName := stackValue ++ "_" ++ network
  let newServiceSpecName := newStackName ++ "_" ++ serviceValue
  let e1 := e.insert "STACK_NAME" ⟨stackKey, newStackName⟩
  e1.insert "SERVICE_SPEC_NAME" ⟨"SERVICE_SPEC_NAME", newServiceSpecName⟩

/-- Type `envs = map[string]env` made explicit: Go map values of type `env`
are references, so the table maps a network name to the address of an
environment in a heap (`List Env`, address = index). -/
abbrev Envs := List (String × Nat)

/-- Address of the environment a network's table entry refers to. -/
def Envs.addrOf (configs : Envs) (network : String) : Nat :=
  ((configs.find? (fun p => p.1 = network)).map (fun p => p.2)).getD 0

/-- Function `setAndGetContainerEnv` from `main.go`: transform the environment the
table points to for `network`, in place (returns the transformed
environment and the updated heap). -/
def setAndGetContainerEnv (heap : List Env) (configs : Envs) (network : String) :
    Env × List Env :=
  let addr := configs.addrOf network
  let e := heap.getD addr []
  let e2 := transformEnv e network
  (e2, heap.set addr e2)

/-- Environment serialization `getContainerEnv` from `main.go`: each
stored `kv` becomes `key=value` (using the `kv.key` field, not the map
key). -/
def Env.getContainerEnv (containerEnv : Env) : List String :=
  containerEnv.map (fun p => p.2.key ++ "=" ++ p.2.value)

/-- Function `getServiceName` from `main.go`. -/
def Env.getServiceName (containerEnv : Env) : String :=
  (containerEnv.lookup "SERVICE_NAME").value

/-- Function `getServiceSpecName` from `main.go`. -/
def Env.getServiceSpecName (containerEnv : Env) : String :=
  (containerEnv.lookup "SERVICE_SPEC_NAME").value

/-- Function `getStackName` from `main.go`. -/
def Env.getStackName (containerEnv : Env) : String :=
  (containerEnv.lookup "STACK_NAME").value

/-- Function `getImage` from `main.go`. -/
def Env.getImage (containerEnv : Env) : String :=
  (containerEnv.lookup "IMAGE").value

/-- Type `swarm.ContainerSpec`: the fields set by `getServiceDefinition`. -/
structure ContainerSpec where
  Image : String
  Command : List String
  Env : List String
deriving DecidableEq, Repr

/-- Type `swarm.NetworkAttachmentConfig`: the fields set by
`getServiceDefinition`. -/
structure NetworkAttachmentConfig where
  Target : String
  Aliases : List String
deriving DecidableEq, Repr

/-- Type `swarm.TaskSpec`: the fields set by `getServiceDefinition`. -/
structure TaskSpec where
  containerSpec : ContainerSpec
  Networks : List NetworkAttachmentConfig
deriving DecidableEq, Repr

/-- Type `swarm.ServiceSpec`: the fields set by `getServiceDefinition`
(`Mode.Replicated.Replicas` flattened to `Replicas`). -/
structure ServiceSpec where
  Name : String
  Labels : List (String × String)
  taskTemplate : TaskSpec
  Replicas : Nat
deriving DecidableEq, Repr

/-- The specification-building tail of `getServiceDefinition` from
`main.go` (lines 213-225), applied to the already-transformed
environment `e`. -/
def buildServiceSpec (e : Env) (replicas : Nat) (network : String) : ServiceSpec :=
  let container : ContainerSpec :=
    { Image := e.getImage, Command := ["/go/bin/pinger"], Env := e.getContainerEnv }
  let nets : NetworkAttachmentConfig :=
    { Target := network, Aliases := [e.getServiceName] }
  { Name := e.getServiceSpecName
    Labels := [("com.docker.stack.image", e.getImage),
               ("com.docker.stack.namespace", e.getStackName)]
    taskTemplate := { containerSpec := container, Networks := [nets] }
    Replicas := replicas }

/-- Function `getServiceDefinition` from `main.go`: transform the network's
environment in the shared table, then build the service specification
from it.  Returns the updated heap alongside the specification. -/
def getServiceDefinition (heap : List Env) (configs : Envs) (replicas : Nat)
    (network : String) : ServiceSpec × List Env :=
  let r := setAndGetContainerEnv heap configs network
  (buildServiceSpec r.1 replicas network, r.2)

/-- The table construction of `main` (lines 262-265): every network is
mapped to the same environment value — in Go a map reference, so every
entry holds the address of the one base environment (address 0). -/
def mkConfigs (networks : List String) : Envs :=
  networks.map (fun n => (n, 0))

/-- The worklist construction of `main` (lines 262-274): one
`getServiceDefinition` per discovered network, threading the shared
environment heap exactly as the aliased Go maps do. -/
def mainWorklist (containerEnv : Env) (networks : List String)
    (numberOfNodes : Nat) : List ServiceSpec :=
  let configs := mkConfigs networks
  (networks.foldl
    (fun acc network =>
      let s := getServiceDefinition acc.2 configs numberOfNodes network
      (acc.1 ++ [s.1], s.2))
    (([] : List ServiceSpec), [containerEnv])).1

/-- Observable events of the deployment loop of `main` (lines 278-284):
a create-service submission, a success confirmation carrying the service
name, or the fatal failure message. -/
inductive DeployEvent where
  | submitted (spec : ServiceSpec)
  | confirmed (name : String)
  | failed (msg : String)
deriving DecidableEq, Repr

/-- The deployment loop of `main` (lines 278-284), with the platform's
create-service call abstracted as `create`: submit each worklist entry
in order; on error, stop the run (`log.Fatalf`); on success, emit the
confirmation and continue. -/
def runWorklist (create : ServiceSpec → Except String Unit) :
    List ServiceSpec → List DeployEvent
  | [] => []
  | work :: rest =>
    match create work with
    | Except.error e => [DeployEvent.submitted work, DeployEvent.failed e]
    | Except.ok _ =>
      DeployEvent.submitted work :: DeployEvent.confirmed work.Name ::
        runWorklist create rest

/-! ## Helper lemmas about the embedded operations -/

theorem Env.lookup_insert_self (e : Env) (k : String) (v : Kv) :
    (e.insert k v).lookup k = v := by
  induction e with
  | nil => simp [Env.insert, Env.lookup]
  | cons p rest ih =>
    by_cases h : p.1 = k
    · simp [Env.insert, Env.lookup, h]
    · simp [Env.insert, Env.lookup, h, ih]

theorem Env.lookup_insert_ne (e : Env) (k k' : String) (v : Kv) (h : k ≠ k') :
    (e.insert k v).lookup k' = e.lookup k' := by
  induction e with
  | nil => simp [Env.insert, Env.lookup, h]
  | cons p rest ih =>
    by_cases hp : p.1 = k
    · simp [Env.insert, Env.lookup, hp, h]
    · have h' : ¬ (k' = k) := fun hc => h hc.symm
      by_cases hp' : p.1 = k'
      · simp [Env.insert, Env.lookup, hp, hp', h']
      · simp [Env.insert, Env.lookup, hp, hp', ih]

theorem Env.hasKey_insert_self (e : Env) (k : String) (v : Kv) :
    (e.insert k v).hasKey k = true := by
  induction e with
  | nil => simp [Env.insert, Env.hasKey]
  | cons p rest ih =>
    by_cases h : p.1 = k
    · simp [Env.insert, Env.hasKey, h]
    · simp [Env.insert, Env.hasKey, h, ih]

theorem splitOnChar_ne_nil (sep : Char) (cs : List Char) :
    splitOnChar sep cs ≠ [] := by
  induction cs with
  | nil => simp [splitOnChar]
  | cons c cs ih =>
    simp only [splitOnChar]
    by_cases h : c = sep
    · simp [h]
    · simp only [h, if_false]
      cases hr : splitOnChar sep cs with
      | nil => simp
      | cons g gs => simp

theorem splitOnChar_append (sep : Char) (xs ys : List Char)
    (h : ∀ c ∈ xs, c ≠ sep) :
    splitOnChar sep (xs ++ sep :: ys) = xs :: splitOnChar sep ys := by
  induction xs with
  | nil => simp [splitOnChar]
  | cons x xs ih =>
    have hx : x ≠ sep := h x (by simp)
    have hrest := ih (fun c hc => h c (by simp [hc]))
    simp only [List.cons_append, splitOnChar, hx, if_false, List.append_eq, hrest]

theorem goSplit_ne_nil (s : String) (sep : Char) : goSplit s sep ≠ [] := by
  unfold goSplit
  intro hcon
  exact splitOnChar_ne_nil sep s.data (List.map_eq_nil_iff.mp hcon)

theorem GoMap.insert_ne_nil (m : GoMap) (k v : String) : m.insert k v ≠ [] := by
  cases m with
  | nil => simp [GoMap.insert]
  | cons p rest =>
    by_cases h : p.1 = k <;> simp [GoMap.insert, h]

theorem GoMap.hasKey_insert (m : GoMap) (k v x : String) :
    (m.insert k v).hasKey x = (m.hasKey x || decide (k = x)) := by
  induction m with
  | nil => simp [GoMap.insert, GoMap.hasKey]
  | cons p rest ih =>
    by_cases hp : p.1 = k
    · by_cases hx : p.1 = x
      · simp [GoMap.insert, GoMap.hasKey, hp, hx, hp ▸ hx]
      · simp only [GoMap.insert, hp, if_true, GoMap.hasKey, hx]
        have : ¬ (k = x) := hp ▸ hx
        simp [this, hx]
    · simp [GoMap.insert, GoMap.hasKey, hp, ih, Bool.or_assoc]

theorem foldl_insert_ne_nil (l : List String) (m : GoMap) (hm : m ≠ []) :
    l.foldl (fun result v => result.insert v v) m ≠ [] := by
  induction l generalizing m with
  | nil => simpa [List.foldl]
  | cons a as ih =>
    simp only [List.foldl]
    exact ih (m.insert a a) (GoMap.insert_ne_nil m a a)

theorem hasKey_foldl_insert (l : List String) (m : GoMap) (x : String) :
    ((l.foldl (fun result v => result.insert v v) m).hasKey x = true)
      ↔ (m.hasKey x = true ∨ x ∈ l) := by
  induction l generalizing m with
  | nil => simp [List.foldl]
  | cons a as ih =>
    simp only [List.foldl, ih, GoMap.hasKey_insert, Bool.or_eq_true,
      decide_eq_true_eq, List.mem_cons]
    constructor
    · rintro (⟨hm | hax⟩ | has)
      · exact Or.inl hm
      · exact Or.inr (Or.inl hax.symm)
      · exact Or.inr (Or.inr has)
    · rintro (hm | hax | has)
      · exact Or.inl (Or.inl hm)
      · exact Or.inl (Or.inr hax.symm)
      · exact Or.inr has

theorem getSubStringsMap_ne_nil (s : String) : getSubStringsMap s ≠ [] := by
  unfold getSubStringsMap
  cases h : goSplit s ',' with
  | nil => exact absurd h (goSplit_ne_nil s ',')
  | cons a as =>
    simp only [List.foldl]
    exact foldl_insert_ne_nil as (GoMap.insert [] a a) (GoMap.insert_ne_nil [] a a)

theorem hasKey_getSubStringsMap (s x : String) :
    ((getSubStringsMap s).hasKey x = true) ↔ x ∈ goSplit s ',' := by
  unfold getSubStringsMap
  rw [hasKey_foldl_insert]
  simp [GoMap.hasKey]

theorem getServiceSpecName_transformEnv (e : Env) (N : String) :
    (transformEnv e N).getServiceSpecName
      = (e.lookup "STACK_NAME").value ++ "_" ++ N ++ "_" ++ (e.lookup "SERVICE_NAME").value := by
  simp [Env.getServiceSpecName, transformEnv, Env.lookup_insert_self]

/-- The base environment of the end-to-end scenario of the specification. -/
def scenarioBaseEnv : Env :=
  [("STACK_NAME", ⟨"STACK_NAME", "app"⟩),
   ("SERVICE_NAME", ⟨"SERVICE_NAME", "svc"⟩),
   ("IMAGE", ⟨"IMAGE", "img:v1"⟩)]

/-! ## Claim theorems -/

/-- C1: the claim asserts the per-network Environment copies are distinct
instances and that transforming one network leaves the others unchanged.
The code violates this: `main` stores the same map reference for every
network (`configs[network] = containerEnv`), so both networks' table
entries resolve to the same address, and after transforming `net-a` the
environment seen for `net-b` already has `STACK_NAME = "app_net-a"` and a
`SERVICE_SPEC_NAME` entry. -/
theorem sharedBaseEnv_mutation_visible_across_networks :
    (mkConfigs ["net-a", "net-b"]).addrOf "net-a"
        = (mkConfigs ["net-a", "net-b"]).addrOf "net-b" ∧
    (((setAndGetContainerEnv [scenarioBaseEnv] (mkConfigs ["net-a", "net-b"]) "net-a").2.getD
          ((mkConfigs ["net-a", "net-b"]).addrOf "net-b") []).lookup "STACK_NAME").value
        = "app_net-a" ∧
    ((setAndGetContainerEnv [scenarioBaseEnv] (mkConfigs ["net-a", "net-b"]) "net-a").2.getD
          ((mkConfigs ["net-a", "net-b"]).addrOf "net-b") []).hasKey "SERVICE_SPEC_NAME"
        = true := by
  decide

/-- C2: the claim (the specification's end-to-end scenario) expects
service names `app_net-a_svc` and `app_net-b_svc`.  Evaluating `main`'s
worklist construction on exactly that scenario shows the first entry is
as expected but the second is `app_net-a_net-b_svc` with namespace label
`app_net-a_net-b`, because every network aliases the same base
environment map. -/
theorem mainWorklist_scenario_eval :
    (mainWorklist scenarioBaseEnv ["net-a", "net-b"] 3).map (fun s => s.Name)
        = ["app_net-a_svc", "app_net-a_net-b_svc"] ∧
    (mainWorklist scenarioBaseEnv ["net-a", "net-b"] 3).map (fun s => s.Labels)
        = [[("com.docker.stack.image", "img:v1"), ("com.docker.stack.namespace", "app_net-a")],
           [("com.docker.stack.image", "img:v1"),
            ("com.docker.stack.namespace", "app_net-a_net-b")]] ∧
    (mainWorklist scenarioBaseEnv ["net-a", "net-b"] 3).map (fun s => s.Replicas) = [3, 3] ∧
    (mainWorklist scenarioBaseEnv ["net-a", "net-b"] 3).map
        (fun s => s.taskTemplate.Networks.map (fun n => n.Target)) = [["net-a"], ["net-b"]] ∧
    ("app_net-a_net-b_svc" : String) ≠ "app_net-b_svc" := by
  decide

/-- C3: for every Environment with `STACK_NAME = S` and
`SERVICE_NAME = V` and every network `N`, one application of the
environment transformation yields `STACK_NAME = S_N`, adds
`SERVICE_SPEC_NAME = S_N_V`, and leaves `SERVICE_NAME` and `IMAGE`
unchanged. -/
theorem envTransformer_correct (e : Env) (S V N : String)
    (hkeyS : e.hasKey "STACK_NAME" = true)
    (hS : (e.lookup "STACK_NAME").value = S)
    (hkeyV : e.hasKey "SERVICE_NAME" = true)
    (hV : (e.lookup "SERVICE_NAME").value = V) :
    ((transformEnv e N).lookup "STACK_NAME").value = S ++ "_" ++ N ∧
    (transformEnv e N).hasKey "SERVICE_SPEC_NAME" = true ∧
    ((transformEnv e N).lookup "SERVICE_SPEC_NAME").value = S ++ "_" ++ N ++ "_" ++ V ∧
    (transformEnv e N).lookup "SERVICE_NAME" = e.lookup "SERVICE_NAME" ∧
    (transformEnv e N).lookup "IMAGE" = e.lookup "IMAGE" := by
  subst hS hV
  refine ⟨?_, ?_, ?_, ?_, ?_⟩
  · simp only [transformEnv]
    rw [Env.lookup_insert_ne _ _ _ _ (by decide), Env.lookup_insert_self]
  · simp only [transformEnv]
    exact Env.hasKey_insert_self _ _ _
  · simp only [transformEnv]
    rw [Env.lookup_insert_self]
  · simp only [transformEnv]
    rw [Env.lookup_insert_ne _ _ _ _ (by decide), Env.lookup_insert_ne _ _ _ _ (by decide)]
  · simp only [transformEnv]
    rw [Env.lookup_insert_ne _ _ _ _ (by decide), Env.lookup_insert_ne _ _ _ _ (by decide)]

/-- Witness for C3 at the scenario environment and network `net`. -/
theorem envTransformer_correct_witness :
    ((transformEnv scenarioBaseEnv "net").lookup "STACK_NAME").value
        = "app" ++ "_" ++ "net" ∧
    (transformEnv scenarioBaseEnv "net").hasKey "SERVICE_SPEC_NAME" = true ∧
    ((transformEnv scenarioBaseEnv "net").lookup "SERVICE_SPEC_NAME").value
        = "app" ++ "_" ++ "net" ++ "_" ++ "svc" ∧
    (transformEnv scenarioBaseEnv "net").lookup "SERVICE_NAME"
        = scenarioBaseEnv.lookup "SERVICE_NAME" ∧
    (transformEnv scenarioBaseEnv "net").lookup "IMAGE"
        = scenarioBaseEnv.lookup "IMAGE" :=
  envTransformer_correct scenarioBaseEnv "app" "svc" "net"
    (by decide) (by decide) (by decide) (by decide)

/-- C4 counterexample: the claim states the labels map is exactly
`stack.image` / `stack.namespace`, but the code writes the keys
`com.docker.stack.image` / `com.docker.stack.namespace`. -/
theorem serviceSpecBuilder_labels_counterexample :
    (buildServiceSpec
        [("STACK_NAME", ⟨"STACK_NAME", "app"⟩),
         ("SERVICE_NAME", ⟨"SERVICE_NAME", "svc"⟩),
         ("IMAGE", ⟨"IMAGE", "img:v1"⟩),
         ("SERVICE_SPEC_NAME", ⟨"SERVICE_SPEC_NAME", "app_net_svc"⟩)]
        3 "net").Labels
      ≠ [("stack.image", "img:v1"), ("stack.namespace", "app")] := by
  decide

/-- C4 (amended): the built service specification has name
`SERVICE_SPEC_NAME`, image `IMAGE`, the fixed command `/go/bin/pinger`,
one network attachment with aliases `[SERVICE_NAME]`, and labels exactly
`com.docker.stack.image = IMAGE`, `com.docker.stack.namespace =
STACK_NAME`. -/
theorem serviceSpecBuilder_fields (e : Env) (replicas : Nat) (network : String) :
    (buildServiceSpec e replicas network).Name = e.getServiceSpecName ∧
    (buildServiceSpec e replicas network).taskTemplate.containerSpec.Image = e.getImage ∧
    (buildServiceSpec e replicas network).taskTemplate.containerSpec.Command
        = ["/go/bin/pinger"] ∧
    (buildServiceSpec e replicas network).taskTemplate.Networks
        = [⟨network, [e.getServiceName]⟩] ∧
    (buildServiceSpec e replicas network).Labels
        = [("com.docker.stack.image", e.getImage),
           ("com.docker.stack.namespace", e.getStackName)] :=
  ⟨rfl, rfl, rfl, rfl, rfl⟩

/-- C6: transforming independent copies of the same base Environment for
two distinct networks always yields distinct `SERVICE_SPEC_NAME`
values. -/
theorem transform_specNames_distinct (e : Env) (N1 N2 : String) (h : N1 ≠ N2) :
    (transformEnv e N1).getServiceSpecName ≠ (transformEnv e N2).getServiceSpecName := by
  intro heq
  apply h
  rw [getServiceSpecName_transformEnv, getServiceSpecName_transformEnv] at heq
  have hd := congrArg String.data heq
  simp only [String.data_append] at hd
  have h2 := List.append_cancel_right hd
  have h3 := List.append_cancel_right h2
  have h4 := List.append_cancel_left h3
  cases N1
  cases N2
  exact congrArg String.mk h4

/-- Witness for C6 at the scenario environment and networks
`net-a ≠ net-b`. -/
theorem transform_specNames_distinct_witness :
    (transformEnv scenarioBaseEnv "net-a").getServiceSpecName
      ≠ (transformEnv scenarioBaseEnv "net-b").getServiceSpecName :=
  transform_specNames_distinct scenarioBaseEnv "net-a" "net-b" (by decide)

theorem networkFold_eq (avoidNetworks : GoMap) (list : List NetworkResource)
    (acc : List String) :
    list.foldl
        (fun networks network =>
          if network.Driver = "overlay" then
            if avoidNetworks.hasKey network.Name then networks
            else networks ++ [network.Name]
          else networks)
        acc
      = acc
        ++ (list.filter
              (fun n => decide (n.Driver = "overlay") && ! avoidNetworks.hasKey n.Name)).map
             (fun n => n.Name) := by
  induction list generalizing acc with
  | nil => simp
  | cons n rest ih =>
    by_cases hdrv : n.Driver = "overlay"
    · by_cases havoid : avoidNetworks.hasKey n.Name
      · simp [List.foldl, hdrv, havoid, ih]
      · simp [List.foldl, hdrv, havoid, ih]
    · simp [List.foldl, hdrv, ih]

/-- C7: network discovery returns exactly the names of the
platform-reported networks whose driver is `overlay` and whose name is
not in the avoid-set, in the platform-reported order. -/
theorem networkDiscovery_filter (avoidNetworks : GoMap) (list : List NetworkResource) :
    getNetworkList avoidNetworks list
      = (list.filter
            (fun n => decide (n.Driver = "overlay") && ! avoidNetworks.hasKey n.Name)).map
           (fun n => n.Name) := by
  unfold getNetworkList
  simpa using networkFold_eq avoidNetworks list []

/-- C5: the deployment loop submits worklist entries in order, confirms
each success with the service name, and after the first failure submits
nothing further. -/
theorem deployer_fail_fast (create : ServiceSpec → Except String Unit) :
    (∀ wl : List ServiceSpec, (∀ w ∈ wl, create w = Except.ok ()) →
      runWorklist create wl
        = wl.flatMap (fun w => [DeployEvent.submitted w, DeployEvent.confirmed w.Name])) ∧
    (∀ (good : List ServiceSpec) (bad : ServiceSpec) (rest : List ServiceSpec) (msg : String),
      (∀ w ∈ good, create w = Except.ok ()) → create bad = Except.error msg →
      runWorklist create (good ++ bad :: rest)
        = good.flatMap (fun w => [DeployEvent.submitted w, DeployEvent.confirmed w.Name])
          ++ [DeployEvent.submitted bad, DeployEvent.failed msg]) := by
  constructor
  · intro wl hok
    induction wl with
    | nil => rfl
    | cons w rest ih =>
      have hw : create w = Except.ok () := hok w (by simp)
      simp [runWorklist, hw, ih (fun x hx => hok x (by simp [hx]))]
  · intro good bad rest msg hok hbad
    induction good with
    | nil => simp [runWorklist, hbad]
    | cons w g ih =>
      have hw : create w = Except.ok () := hok w (by simp)
      simp [runWorklist, hw, ih (fun x hx => hok x (by simp [hx]))]

/-- Witness for C5: three worklist entries, the create call fails on the
second, so the third is never submitted and only the first is
confirmed. -/
theorem deployer_fail_fast_witness :
    runWorklist
        (fun s => if s.Name = "b" then Except.error "boom" else Except.ok ())
        [⟨"a", [], ⟨⟨"", [], []⟩, []⟩, 1⟩, ⟨"b", [], ⟨⟨"", [], []⟩, []⟩, 1⟩,
         ⟨"c", [], ⟨⟨"", [], []⟩, []⟩, 1⟩]
      = [DeployEvent.submitted ⟨"a", [], ⟨⟨"", [], []⟩, []⟩, 1⟩, DeployEvent.confirmed "a",
         DeployEvent.submitted ⟨"b", [], ⟨⟨"", [], []⟩, []⟩, 1⟩, DeployEvent.failed "boom"] := by
  have h :=
    (deployer_fail_fast
        (fun s => if s.Name = "b" then Except.error "boom" else Except.ok ())).2
      [⟨"a", [], ⟨⟨"", [], []⟩, []⟩, 1⟩] ⟨"b", [], ⟨⟨"", [], []⟩, []⟩, 1⟩
      [⟨"c", [], ⟨⟨"", [], []⟩, []⟩, 1⟩] "boom"
      (by intro w hw
          simp only [List.mem_singleton] at hw
          subst hw
          rfl)
      (by rfl)
  simpa using h

/-- Lemma: `String.mk` is a left inverse of `String.data`. -/
theorem stringMk_data (s : String) : String.mk s.data = s := by
  cases s
  rfl

/-- C10: on a line with two or more `=` characters, the key-value parser
keeps only the text before the first `=` as key and the text between the
first and second `=` as value. -/
theorem keyValue_two_equals (a b c : String)
    (ha : ∀ ch ∈ a.data, ch ≠ '=') (hb : ∀ ch ∈ b.data, ch ≠ '=') :
    getKeyValue (a ++ "=" ++ b ++ "=" ++ c) = (a, b) := by
  have hdata : (a ++ "=" ++ b ++ "=" ++ c).data
      = a.data ++ '=' :: (b.data ++ '=' :: c.data) := by
    simp only [String.data_append, List.append_assoc]
    rfl
  unfold getKeyValue goSplit
  rw [hdata, splitOnChar_append '=' a.data _ ha, splitOnChar_append '=' b.data _ hb]
  simp [stringMk_data, Nat.succ_lt_succ_iff]

/-- Witness for C10: `K=a=b` parses to key `K` and value `a`. -/
theorem keyValue_two_equals_witness : getKeyValue "K=a=b" = ("K", "a") := by
  have h := keyValue_two_equals "K" "a" "b" (by decide) (by decide)
  have he : ("K" ++ "=" ++ "a" ++ "=" ++ "b" : String) = "K=a=b" := by decide
  rw [he] at h
  exact h

/-- Function `getConfig` in closed form: the avoid-networks branch never errors,
so the only failure is an unparsable non-empty `AVOID_MASTERS`. -/
theorem getConfig_eq (e : Env) :
    getConfig e
      = (if (e.lookup "AVOID_MASTERS").value = "" then
           Except.ok
             ⟨if (e.lookup "AVOID_NETWORKS").value = "" then [("ingress", "ingress")]
              else getSubStringsMap (e.lookup "AVOID_NETWORKS").value, 1⟩
         else
           match goAtoi (e.lookup "AVOID_MASTERS").value with
           | none => Except.error "invalid value passed for AVOID_INGRESS"
           | some s =>
             Except.ok
               ⟨if (e.lookup "AVOID_NETWORKS").value = "" then [("ingress", "ingress")]
                else getSubStringsMap (e.lookup "AVOID_NETWORKS").value, s⟩) := by
  by_cases hn : (e.lookup "AVOID_NETWORKS").value = ""
  · by_cases hm : (e.lookup "AVOID_MASTERS").value = ""
    · simp [getConfig, hn, hm]
    · simp [getConfig, hn, hm]
  · have hne : getSubStringsMap (e.lookup "AVOID_NETWORKS").value ≠ [] :=
      getSubStringsMap_ne_nil _
    by_cases hm : (e.lookup "AVOID_MASTERS").value = ""
    · simp [getConfig, hn, hm, List.length_eq_zero, hne]
    · simp [getConfig, hn, hm, List.length_eq_zero, hne]

/-- C8: the `AVOID_MASTERS` resolution defaults to `1` when the value is
absent or empty, returns the parsed integer when the value parses, and
yields the config error exactly when the value is non-empty and does not
parse as an integer. -/
theorem resolveAvoidMasters_correct (e : Env) :
    ((e.lookup "AVOID_MASTERS").value = "" →
      ∃ cfg, getConfig e = Except.ok cfg ∧ cfg.AvoidMasters = 1) ∧
    (∀ n : Int, goAtoi (e.lookup "AVOID_MASTERS").value = some n →
      ∃ cfg, getConfig e = Except.ok cfg ∧ cfg.AvoidMasters = n) ∧
    ((e.lookup "AVOID_MASTERS").value ≠ "" →
      goAtoi (e.lookup "AVOID_MASTERS").value = none →
      ∃ msg, getConfig e = Except.error msg) := by
  refine ⟨?_, ?_, ?_⟩
  · intro h0
    rw [getConfig_eq]
    simp only [h0, if_true]
    exact ⟨_, rfl, rfl⟩
  · intro n hn
    by_cases h0 : (e.lookup "AVOID_MASTERS").value = ""
    · rw [h0] at hn
      have hnone : goAtoi "" = none := by decide
      rw [hnone] at hn
      cases hn
    · rw [getConfig_eq]
      simp only [h0, if_false]
      rw [hn]
      exact ⟨_, rfl, rfl⟩
  · intro h0 hn
    rw [getConfig_eq]
    simp only [h0, if_false]
    rw [hn]
    exact ⟨_, rfl⟩

/-- Witness for C8: `0` parses to `0`, `1` to `1`, `bad` errors, and an
absent value defaults to `1`. -/
theorem resolveAvoidMasters_witness :
    (∃ cfg, getConfig [("AVOID_MASTERS", ⟨"AVOID_MASTERS", "0"⟩)] = Except.ok cfg
        ∧ cfg.AvoidMasters = 0) ∧
    (∃ cfg, getConfig [("AVOID_MASTERS", ⟨"AVOID_MASTERS", "1"⟩)] = Except.ok cfg
        ∧ cfg.AvoidMasters = 1) ∧
    (∃ msg, getConfig [("AVOID_MASTERS", ⟨"AVOID_MASTERS", "bad"⟩)] = Except.error msg) ∧
    (∃ cfg, getConfig ([] : Env) = Except.ok cfg ∧ cfg.AvoidMasters = 1) :=
  ⟨(resolveAvoidMasters_correct [("AVOID_MASTERS", ⟨"AVOID_MASTERS", "0"⟩)]).2.1 0 (by decide),
   (resolveAvoidMasters_correct [("AVOID_MASTERS", ⟨"AVOID_MASTERS", "1"⟩)]).2.1 1 (by decide),
   (resolveAvoidMasters_correct [("AVOID_MASTERS", ⟨"AVOID_MASTERS", "bad"⟩)]).2.2
     (by decide) (by decide),
   (resolveAvoidMasters_correct ([] : Env)).1 (by decide)⟩

/-- C9: the `AVOID_NETWORKS` resolution defaults to the `ingress`
singleton when the value is absent or empty, otherwise yields the set of
comma-separated fragments of the value; the defensive empty-set error is
unreachable because comma-splitting a string always yields at least one
fragment. -/
theorem resolveAvoidNetworks_correct (e : Env) (s x : String) :
    getSubStringsMap s ≠ [] ∧
    (((getSubStringsMap s).hasKey x = true) ↔ x ∈ goSplit s ',') ∧
    ((e.lookup "AVOID_NETWORKS").value = "" →
      ∀ cfg, getConfig e = Except.ok cfg → cfg.AvoidNetworks = [("ingress", "ingress")]) ∧
    ((e.lookup "AVOID_NETWORKS").value ≠ "" →
      ∀ cfg, getConfig e = Except.ok cfg →
        cfg.AvoidNetworks = getSubStringsMap (e.lookup "AVOID_NETWORKS").value) := by
  refine ⟨getSubStringsMap_ne_nil s, hasKey_getSubStringsMap s x, ?_, ?_⟩
  · intro h0 cfg hcfg
    rw [getConfig_eq] at hcfg
    simp only [h0, if_true] at hcfg
    split at hcfg
    · cases hcfg
      rfl
    · split at hcfg
      · cases hcfg
      · cases hcfg
        rfl
  · intro h0 cfg hcfg
    rw [getConfig_eq] at hcfg
    simp only [h0, if_false] at hcfg
    split at hcfg
    · cases hcfg
      rfl
    · split at hcfg
      · cases hcfg
      · cases hcfg
        rfl

/-- Witness for C9: splitting `a,b,c` is non-empty, membership matches
the comma fragments, the empty value defaults to `ingress`, and the
value `a,b,c` yields its fragment set. -/
theorem resolveAvoidNetworks_witness :
    getSubStringsMap "a,b,c" ≠ [] ∧
    (((getSubStringsMap "a,b,c").hasKey "b" = true) ↔ "b" ∈ goSplit "a,b,c" ',') ∧
    (∀ cfg, getConfig ([] : Env) = Except.ok cfg
        → cfg.AvoidNetworks = [("ingress", "ingress")]) ∧
    (∀ cfg, getConfig [("AVOID_NETWORKS", ⟨"AVOID_NETWORKS", "a,b,c"⟩)] = Except.ok cfg
        → cfg.AvoidNetworks = getSubStringsMap "a,b,c") := by
  have h1 := resolveAvoidNetworks_correct ([] : Env) "a,b,c" "b"
  have h2 :=
    resolveAvoidNetworks_correct [("AVOID_NETWORKS", ⟨"AVOID_NETWORKS", "a,b,c"⟩)] "a,b,c" "b"
  exact ⟨h1.1, h1.2.1, h1.2.2.1 rfl, by simpa using h2.2.2.2 (by decide)⟩

end Composer
